import Mathlib

/-!
Verification of the mutable-state / trace-boundary design described in the
BrainPy tutorial notebooks (control flow for JIT compilation, `Variable`
semantics, structured loops, compilation caching, and state save/load).

The repository under verification consists of documentation notebooks; the
library implementation itself is not part of the sources.  Consequently the
operations below are shallow embeddings modelled from the specification's
contracts (each such definition is marked `Modelled from the spec:`), and the
notebooks' recorded inputs/outputs serve as concrete test points.
-/

namespace BrainPy

/-- Element types of tensor values (the dtypes occurring in the notebooks). -/
inductive DType where
  | int32
  | float32
  | boolT
  | uint32
deriving DecidableEq, Repr

/-- Error taxonomy.  Modelled from the spec: TraceBoolConversionError,
ShapeMismatch, TypeMismatch and ArityMismatch, §7 of the design document
(in the library all of these surface as `brainpy.errors.MathError` or JAX's
`TracerBoolConversionError`; the taxonomy keeps them apart). -/
inductive Err where
  | traceBoolConversion (shape : List Nat)
  | shapeMismatch (original new : List Nat)
  | typeMismatch (original new : DType)
  | arityMismatch (numPreds numBranches : Nat)
deriving DecidableEq, Repr

/-- A concrete tensor-like value: a shape, an element type and row-major
flattened data (elements modelled as integers, which is exact arithmetic;
the notebooks' float examples only involve values representable exactly). -/
structure TensorVal where
  shape : List Nat
  dtype : DType
  data : List Int
deriving DecidableEq, Repr

/-- Modelled from the spec: a StateCell (`brainpy.math.Variable`): a named,
identity-stable container holding a tensor-like value, with a version counter
incremented on every committed mutation.  The implementation
(`brainpy/_src/math/ndarray.py`) is not among the repository's sources. -/
structure Variable where
  ident : Nat
  val : TensorVal
  version : Nat
deriving DecidableEq, Repr

/-- Modelled from the spec: `write(new_value)` on a StateCell fails with
ShapeMismatch if the shape differs, TypeMismatch if the element type differs,
and otherwise replaces the stored value and increments the version, keeping
the identity token.  This is the operation behind `.value` assignment. -/
def Variable.valueAssign (c : Variable) (v : TensorVal) : Except Err Variable :=
  if c.val.shape ≠ v.shape then
    .error (.shapeMismatch c.val.shape v.shape)
  else if c.val.dtype ≠ v.dtype then
    .error (.typeMismatch c.val.dtype v.dtype)
  else
    .ok ⟨c.ident, v, c.version + 1⟩

/-- Modelled from the spec: the `.update()` method, which the notebook states
is the same operation as `.value` assignment. -/
def Variable.update (c : Variable) (v : TensorVal) : Except Err Variable :=
  c.valueAssign v

/-! ## Traced values and native control flow (the trace boundary) -/

/-- A boolean-valued quantity as seen during a compiled invocation: either a
concrete Python-level boolean known at trace time, or a traced value carrying
only shape/type information.  Modelled from the spec: reads of a StateCell
inside a trace observe the abstract (shape/type-only) value, and values
derived from compiled-function arguments are likewise traced. -/
inductive TBool where
  | conc (b : Bool)
  | traced (shape : List Nat)
deriving DecidableEq, Repr

/-- Whether a boolean-valued quantity is traced (shape/type-only). -/
def TBool.isTraced : TBool → Bool
  | .conc _ => false
  | .traced _ => true

/-- An integer-valued quantity during a compiled invocation: concrete, or
traced with only its shape recorded. -/
inductive TVal where
  | conc (x : Int)
  | traced (shape : List Nat)
deriving DecidableEq, Repr

/-- Whether an integer-valued quantity is traced. -/
def TVal.isTraced : TVal → Bool
  | .conc _ => false
  | .traced _ => true

/-- The less-than comparison on in-trace values (`ndarray.__lt__` in the
library): comparing produces a concrete boolean only when both operands are
concrete; a value derived from a traced operand is itself traced. -/
def TVal.lt : TVal → TVal → TBool
  | .conc a, .conc b => .conc (decide (a < b))
  | .traced s, _ => .traced s
  | .conc _, .traced s => .traced s

/-- Modelled from the spec: the attempt to convert an in-trace boolean to a
concrete boolean, as a native `if`/`while` does.  A traced value has no single
concrete truth value, so the conversion fails with TraceBoolConversionError
(JAX's `TracerBoolConversionError` in the notebook output). -/
def toConcreteBool : TBool → Except Err Bool
  | .conc b => .ok b
  | .traced s => .error (.traceBoolConversion s)

/-- Native (host-language) `if` executed during a compiled invocation: the
predicate is converted to a concrete boolean, then one branch is picked.  The
whole call propagates a failed conversion instead of picking a branch. -/
def nativeIf (p : TBool) (onTrue onFalse : α) : Except Err α := do
  let b ← toConcreteBool p
  if b then pure onTrue else pure onFalse

/-- Native `while` (one guard evaluation): the guard is converted to a
concrete boolean first, so a traced guard fails the call before any body
runs. -/
def nativeWhileStep (p : TBool) (body exit : α) : Except Err α := do
  let b ← toConcreteBool p
  if b then pure body else pure exit

/-! ## Structured branching: `brainpy.math.ifelse` -/

/-- The index of the first true predicate, or the number of predicates when
none is true (selecting the mandatory default body). -/
def firstTrueIndex : List Bool → Nat
  | [] => 0
  | p :: ps => if p then 0 else firstTrueIndex ps + 1

/-- Modelled from the spec: `branch(predicates, branches, operands)`
(`brainpy.math.ifelse`): evaluates predicates in order and executes the body
associated with the first true predicate; if none is true, executes the
mandatory final default body; fails with ArityMismatch unless
`len(predicates) + 1 == len(branches)`.  Matches the notebook's reference
semantics `if pred1: return func1(operands) elif pred2: ... else: ...`.
`ifelseGo` is the dispatch over the predicate list; `ifelse` adds the arity
check. -/
def ifelseGo {α : Type u} {β : Type v} (operands : α) :
    List Bool → List (α → β) → Option β
  | _, [] => none
  | [], b :: _ => some (b operands)
  | c :: cs, b :: bs => if c then some (b operands) else ifelseGo operands cs bs

/-- Modelled from the spec: `branch(predicates, branches, operands)`
(`brainpy.math.ifelse`), with the arity check first. -/
def ifelse {α : Type u} {β : Type v} (conditions : List Bool)
    (branches : List (α → β)) (operands : α) : Except Err β :=
  if branches.length = conditions.length + 1 then
    match ifelseGo operands conditions branches with
    | some r => .ok r
    | none => .error (.arityMismatch conditions.length branches.length)
  else
    .error (.arityMismatch conditions.length branches.length)

/-! ## In-place mutations of a StateCell -/

/-- The in-place mutation operations on a StateCell shown in the notebook:
index assignment `v[i] = x`, slice assignment `v[i:j] = x`, augmented
assignment (`+=`, `*=`, ...), `.value` assignment and `.update()`. -/
inductive Mutation where
  | setIndex (i : Nat) (x : Int)
  | setSlice (i j : Nat) (x : Int)
  | augAdd (x : Int)
  | augMul (x : Int)
  | valueAssign (v : TensorVal)
  | update (v : TensorVal)
deriving DecidableEq, Repr

/-- Replace the data of a cell in place (the effect of indexing/slicing and
augmented assignment: the stored data changes, shape, dtype and identity do
not), incrementing the version. -/
def Variable.withData (c : Variable) (data : List Int) : Variable :=
  ⟨c.ident, ⟨c.val.shape, c.val.dtype, data⟩, c.version + 1⟩

/-- Modelled from the spec: applying one in-place mutation to a StateCell.
Index/slice/augmented assignments always succeed (they write through the
existing container); `.value` assignment and `.update()` perform the
shape/dtype check. -/
def Variable.applyMutation (c : Variable) : Mutation → Except Err Variable
  | .setIndex i x => .ok (c.withData (c.val.data.set i x))
  | .setSlice i j x =>
      .ok (c.withData ((List.range c.val.data.length).zipWith
        (fun k v => if i ≤ k ∧ k < j then x else v) c.val.data))
  | .augAdd x => .ok (c.withData (c.val.data.map (· + x)))
  | .augMul x => .ok (c.withData (c.val.data.map (· * x)))
  | .valueAssign v => c.valueAssign v
  | .update v => c.update v

/-- Applying a sequence of in-place mutations, stopping at the first error. -/
def Variable.applyMutations (c : Variable) : List Mutation → Except Err Variable
  | [] => .ok c
  | m :: ms =>
    match c.applyMutation m with
    | .ok c₁ => c₁.applyMutations ms
    | .error e => .error e

/-! ## Structured loops: `brainpy.math.for_loop` and `while_loop` -/

/-- Modelled from the spec: `bounded_loop(body, xs)` (`brainpy.math.for_loop`):
iterates the body once per leading-axis slice of the input sequence, threading
the StateCell state, and gathers each call's return value into a new leading
axis.  The body takes the accumulated state and one input slice and yields the
updated state with that iteration's output. -/
def forLoop {σ α β : Type} (body : σ → α → σ × β) (s : σ) :
    List α → σ × List β
  | [] => (s, [])
  | x :: xs =>
    ((forLoop body (body s x).1 xs).1,
     (body s x).2 :: (forLoop body (body s x).1 xs).2)

/-- The native Python loop from the notebook (`for s in seq: res += s` with
the outputs appended to a list): a left fold accumulating state and history. -/
def nativeForLoop {σ α β : Type} (body : σ → α → σ × β) (s : σ)
    (xs : List α) : σ × List β :=
  xs.foldl (fun acc x =>
    ((body acc.1 x).1, acc.2 ++ [(body acc.1 x).2])) (s, [])

/-- The running-sum body of `LoopSimple`/`LoopStruct`: `self.res += s`, and
the body returns the updated value of the cell. -/
def sumBody (s : Int) (x : Int) : Int × Int := (s + x, s + x)

/-- The fixed pseudo-random sequence: a deterministic linear congruential
stream standing in for `RandomState(123).random(1000)` (the notebooks'
generator is JAX's threefry, external to this repository; any fixed
deterministic sequence exercises the bit-identical-replay contract). -/
def lcgNext (s : Nat) : Nat := (1664525 * s + 1013904223) % 4294967296

/-- The first `n` values of the fixed pseudo-random stream seeded at 123,
as integers. -/
def randSeq (n : Nat) : List Int :=
  ((List.range n).foldl (fun acc _ =>
    let s := lcgNext acc.1
    (s, acc.2 ++ [((s % 1000 : Nat) : Int)])) ((123 : Nat), ([] : List Int))).2

/-- Modelled from the spec: `conditional_loop(body, predicate, init)`
(`brainpy.math.while_loop`): repeatedly evaluates the predicate and while it
is true replaces the state with `body state`.  The embedding takes explicit
fuel and also counts iterations; `none` means the fuel ran out with the
predicate still true. -/
def whileLoop {α : Type} (pred : α → Bool) (body : α → α) :
    Nat → α → Option (α × Nat)
  | 0, x => if pred x then none else some (x, 0)
  | fuel + 1, x =>
    if pred x then
      (whileLoop pred body fuel (body x)).map (fun r => (r.1, r.2 + 1))
    else
      some (x, 0)

/-! ## The compilation cache: `brainpy.math.jit` -/

/-- A compilation signature: the argument shapes and element types
(rank/dtype changes change the signature). -/
structure Sig where
  shapes : List (List Nat)
  dtypes : List DType
deriving DecidableEq, Repr

/-- The state of one compiled entry point: the cached signatures and how many
traces have happened, together with the concrete values of the StateCells the
function writes (modelled abstractly as a state of type σ). -/
structure JitState (σ : Type) where
  cache : List Sig
  traceCount : Nat
  cells : σ
deriving Repr

/-- Modelled from the spec: one invocation of a compiled function.  If the
signature matches a cache entry the cached executable runs (no retracing);
otherwise a fresh trace happens and the signature is stored.  In both cases
the resulting StateCell writes are committed to the real cells (`f` is the
function's effect on the cells). -/
def jitInvoke {σ : Type} (f : σ → σ) (st : JitState σ) (sig : Sig) :
    JitState σ :=
  if sig ∈ st.cache then
    ⟨st.cache, st.traceCount, f st.cells⟩
  else
    ⟨sig :: st.cache, st.traceCount + 1, f st.cells⟩

/-- A fresh, uncompiled entry point. -/
def jitInit {σ : Type} (cells : σ) : JitState σ := ⟨[], 0, cells⟩

/-! ## Element-wise selection with broadcasting: `brainpy.math.where` -/

/-- A dense tensor of element type `α`: a shape and the row-major flattened
data (a scalar has shape `[]` and one element). -/
structure Tensor (α : Type) where
  shape : List Nat
  data : List α
deriving DecidableEq, Repr

/-- A well-formed tensor carries exactly one element per point of its shape. -/
def Tensor.wf {α : Type} (t : Tensor α) : Prop :=
  t.data.length = t.shape.prod

/-- A scalar tensor. -/
def Tensor.scalar {α : Type} (x : α) : Tensor α := ⟨[], [x]⟩

/-- A rank-1 tensor. -/
def Tensor.vec {α : Type} (xs : List α) : Tensor α := ⟨[xs.length], xs⟩

/-- One axis of NumPy-style broadcasting: the two extents must be equal or
one of them 1; the broadcast extent is the larger one. -/
def broadcastDim (d e : Nat) : Option Nat :=
  if d = e then some d
  else if d = 1 then some e
  else if e = 1 then some d
  else none

/-- Broadcasting of two shapes given with the *trailing* axis first (reversed
shapes); the shorter shape is implicitly padded with 1s. -/
def broadcastRev : List Nat → List Nat → Option (List Nat)
  | [], s => some s
  | s, [] => some s
  | d :: s, e :: t => do
    let h ← broadcastDim d e
    let rest ← broadcastRev s t
    pure (h :: rest)

/-- NumPy-style broadcasting of two shapes, aligned at the trailing axes.
`none` when the shapes are not broadcast-compatible. -/
def broadcastShape (s t : List Nat) : Option (List Nat) :=
  (broadcastRev s.reverse t.reverse).map List.reverse

/-- Row-major flat offset of a multi-index within a shape. -/
def toOffset : List Nat → List Nat → Nat
  | _ :: ds, i :: is => i * ds.prod + toOffset ds is
  | _, _ => 0

/-- The multi-index at row-major flat position `k` within a shape. -/
def unflatten : List Nat → Nat → List Nat
  | [], _ => []
  | _ :: ds, k => (k / ds.prod) :: unflatten ds (k % ds.prod)

/-- Whether a multi-index is in range for a shape. -/
def validIdx : List Nat → List Nat → Bool
  | [], [] => true
  | d :: ds, i :: is => decide (i < d) && validIdx ds is
  | _, _ => false

/-- Reading one element of a tensor at a multi-index of a (possibly larger)
broadcast shape: the trailing coordinates are kept and any axis of extent 1 is
read at coordinate 0 (the broadcast rule). -/
def Tensor.bGet {α : Type} (t : Tensor α) (dflt : α) (idx : List Nat) : α :=
  let idx' := idx.drop (idx.length - t.shape.length)
  let capped := t.shape.zipWith (fun d i => if d = 1 then 0 else i) idx'
  t.data.getD (toOffset t.shape capped) dflt

/-- Reading one element of a tensor at a multi-index of its own shape. -/
def Tensor.getAt {α : Type} (t : Tensor α) (dflt : α) (idx : List Nat) : α :=
  t.data.getD (toOffset t.shape idx) dflt

/-- Modelled from the spec: `select(condition, on_true, on_false)`
(`brainpy.math.where`): condition, on_true and on_false are broadcast to a
common shape and the result combines, per element, on_true where the
condition holds and on_false otherwise.  `none` when the three shapes are not
broadcast-compatible. -/
def select {α : Type} (dflt : α) (cond : Tensor Bool)
    (onTrue onFalse : Tensor α) : Option (Tensor α) := do
  let s₁ ← broadcastShape cond.shape onTrue.shape
  let s ← broadcastShape s₁ onFalse.shape
  pure ⟨s, (List.range s.prod).map (fun k =>
    let idx := unflatten s k
    if cond.bGet false idx then onTrue.bGet dflt idx else onFalse.bGet dflt idx)⟩

/-! ## State saving and loading -/

/-- The on-disk form of a checkpoint: per named cell, the shape, element type
and raw data, in order.  Modelled from the spec's persistence contract
(`save(key to value mapping, destination)` / `load(source)`). -/
def CheckpointFile : Type := List (String × List Nat × DType × List Int)

/-- Modelled from the spec: `state_of` (`brainpy.save_state` /
`net.state_dict()`): the mapping of named cells to their current values. -/
def stateOf (cells : List (String × Variable)) : List (String × TensorVal) :=
  cells.map (fun p => (p.1, p.2.val))

/-- Modelled from the spec: `brainpy.checkpoints.save_pytree`: serializes the
mapping of dotted hierarchical keys to concrete tensor values. -/
def savePytree (m : List (String × TensorVal)) : CheckpointFile :=
  m.map (fun p => (p.1, p.2.shape, p.2.dtype, p.2.data))

/-- Modelled from the spec: deserializing a checkpoint file back into the
key-to-value mapping. -/
def loadPytree (f : CheckpointFile) : List (String × TensorVal) :=
  f.map (fun p => (p.1, ⟨p.2.1, p.2.2.1, p.2.2.2⟩))

/-- Association-list lookup by the dotted hierarchical key. -/
def lookupKey (k : String) : List (String × TensorVal) → Option TensorVal
  | [] => none
  | p :: ps => if p.1 = k then some p.2 else lookupKey k ps

/-- Modelled from the spec: `brainpy.load_state(target, state_dict)`
(`apply(object, mapping)`): every named value of the object present in the
mapping is replaced by the mapped value; returns the updated object together
with `missing_keys` (keys of the object absent from the mapping) and
`unexpected_keys` (keys of the mapping absent from the object). -/
def loadState (obj : List (String × TensorVal))
    (dict : List (String × TensorVal)) :
    List (String × TensorVal) × List String × List String :=
  (obj.map (fun p => (p.1, (lookupKey p.1 dict).getD p.2)),
   ((obj.filter (fun p => (lookupKey p.1 dict).isNone)).map Prod.fst,
    (dict.filter (fun p => (lookupKey p.1 obj).isNone)).map Prod.fst))

/-- Modelled from the spec: `brainpy.checkpoints.load_pytree(filename)`
against a filesystem: per the notebook's API description, restoring from a
file path or directory that does not exist returns the original `target`
without changes instead of surfacing an error. -/
def loadPytreeFromFS (fs : String → Option CheckpointFile) (filename : String)
    (target : List (String × TensorVal)) :
    Except Err (List (String × TensorVal)) :=
  match fs filename with
  | some f => .ok (loadPytree f)
  | none => .ok target

/-- Equality of fallible results is decidable when both components are. -/
instance {ε α : Type} [DecidableEq ε] [DecidableEq α] :
    DecidableEq (Except ε α) := fun x y =>
  match x, y with
  | .ok a, .ok b =>
    if h : a = b then .isTrue (by rw [h])
    else .isFalse (fun hc => h (Except.ok.inj hc))
  | .error a, .error b =>
    if h : a = b then .isTrue (by rw [h])
    else .isFalse (fun hc => h (Except.error.inj hc))
  | .ok _, .error _ => .isFalse (fun hc => Except.noConfusion hc)
  | .error _, .ok _ => .isFalse (fun hc => Except.noConfusion hc)

/-- The notebook's cell `v = bm.Variable(bm.arange(10))`, with identity
token 7. -/
def v0 : Variable := ⟨7, ⟨[10], .int32, List.range 10 |>.map Int.ofNat⟩, 0⟩

/-- The notebook's chain of in-place mutations on `v0` (`v[0] = 1`,
`v[1:2] = 1`, `v += 1`, `v *= 2`, `v.value = bm.arange(10)`,
`v.update(bm.arange(10))`). -/
def ms0 : List Mutation :=
  [.setIndex 0 1, .setSlice 1 2 1, .augAdd 1, .augMul 2,
    .valueAssign ⟨[10], .int32, List.range 10 |>.map Int.ofNat⟩,
    .update ⟨[10], .int32, List.range 10 |>.map Int.ofNat⟩]

/-- The notebook's multi-branch example `f`: `a > 10 → 1., a > 5 → 2.,
a > 0 → 3., a > -5 → 4., else 5.` written with `brainpy.math.ifelse`. -/
def f (a : Int) : Except Err Int :=
  ifelse [decide (a > 10), decide (a > 5), decide (a > 0), decide (a > -5)]
    [fun _ => 1, fun _ => 2, fun _ => 3, fun _ => 4, fun _ => 5] ()

/-- The notebook's loop guard `cond_f`: `i[0] < 10`. -/
def cond_f (i : Int) : Bool := decide (i < 10)

/-- The notebook's loop body `body_f`: `i += 1`. -/
def body_f (i : Int) : Int := i + 1

/-! ## Theorems -/

/-- C1: a native `if`/`while` whose predicate is derived (here through the
`<` comparison of the notebook's `self.rand < 0.5`) from a traced value —
one coming from a StateCell read or a compiled-function argument — fails with
TraceBoolConversionError when the predicate is converted to a concrete
boolean; the call raises instead of silently picking a branch. -/
theorem nativeControlFlow_on_traced_raises {α : Type} (a b : TVal)
    (t e : α) (h : (a.isTraced || b.isTraced) = true) :
    ∃ s, toConcreteBool (TVal.lt a b) = .error (.traceBoolConversion s) ∧
      nativeIf (TVal.lt a b) t e = .error (.traceBoolConversion s) ∧
      nativeWhileStep (TVal.lt a b) t e = .error (.traceBoolConversion s) := by
  cases a with
  | conc x =>
    cases b with
    | conc y => simp [TVal.isTraced] at h
    | traced s =>
      exact ⟨s, rfl, rfl, rfl⟩
  | traced s =>
    exact ⟨s, rfl, rfl, rfl⟩

/-- C1 witness: the notebook's `OddEvenCauseError` situation — the traced
read of the StateCell `self.rand` (shape `[1]`) compared against the concrete
`0.5`-like constant — at concrete branch payloads. -/
theorem nativeControlFlow_on_traced_raises_witness :
    ((TVal.traced [1]).isTraced || (TVal.conc 0).isTraced) = true ∧
    ∃ s, toConcreteBool (TVal.lt (.traced [1]) (.conc 0)) =
        .error (.traceBoolConversion s) ∧
      nativeIf (TVal.lt (.traced [1]) (.conc 0)) (1 : Int) (-1) =
        .error (.traceBoolConversion s) ∧
      nativeWhileStep (TVal.lt (.traced [1]) (.conc 0)) (1 : Int) (-1) =
        .error (.traceBoolConversion s) :=
  ⟨by decide, nativeControlFlow_on_traced_raises _ _ _ _ (by decide)⟩

/-- The dispatch of `ifelse` picks the branch at the first true predicate
(the default body being at index `len(conditions)`). -/
theorem ifelseGo_eq_firstTrue {α : Type u} {β : Type v} (ops : α) :
    ∀ (conds : List Bool) (branches : List (α → β)),
    branches.length = conds.length + 1 →
    ifelseGo ops conds branches =
      (branches.get? (firstTrueIndex conds)).map (fun f => f ops) := by
  intro conds
  induction conds with
  | nil =>
    intro branches h
    cases branches with
    | nil => simp at h
    | cons g bs => simp [ifelseGo, firstTrueIndex]
  | cons c cs ih =>
    intro branches h
    cases branches with
    | nil => simp at h
    | cons g bs =>
      by_cases hc : c
      · simp [ifelseGo, firstTrueIndex, hc]
      · simp only [ifelseGo, firstTrueIndex, hc, Bool.false_eq_true,
          if_false]
        rw [ih bs (by simpa using h)]
        simp

/-- The first-true index never runs past the predicate list. -/
theorem firstTrueIndex_le : ∀ (conds : List Bool),
    firstTrueIndex conds ≤ conds.length := by
  intro conds
  induction conds with
  | nil => simp [firstTrueIndex]
  | cons c cs ih =>
    by_cases hc : c
    · simp [firstTrueIndex, hc]
    · simp only [firstTrueIndex, hc, Bool.false_eq_true, if_false,
        List.length_cons]
      omega

/-- C2: `branch(predicates, branches, operands)` returns the body of the
first true predicate applied to the operands, and the mandatory default body
when no predicate is true; on the notebook's predicates
`[a>10, a>5, a>0, a>-5]` with branches `[1,2,3,4,5]` it yields 1 for a=11,
2 for a=6, 3 for a=1, 4 for a=-4 and 5 for a=-6. -/
theorem ifelse_firstTrue_semantics {α : Type u} {β : Type v}
    (conds : List Bool) (branches : List (α → β)) (ops : α)
    (h : branches.length = conds.length + 1) (g : α → β)
    (hg : branches.get? (firstTrueIndex conds) = some g) :
    ifelse conds branches ops = .ok (g ops) ∧
    f 11 = .ok 1 ∧ f 6 = .ok 2 ∧ f 1 = .ok 3 ∧
    f (-4) = .ok 4 ∧ f (-6) = .ok 5 := by
  refine ⟨?_, by rfl, by rfl, by rfl, by rfl, by rfl⟩
  unfold ifelse
  rw [if_pos h, ifelseGo_eq_firstTrue ops conds branches h, hg]
  rfl

/-- C2 witness: the notebook's `f(6.)` call — predicates
`[6>10, 6>5, 6>0, 6>-5]`, five branches, dispatching to branch 2. -/
theorem ifelse_firstTrue_semantics_witness :
    ([fun _ => (1 : Int), fun _ => 2, fun _ => 3, fun _ => 4,
        fun _ => 5] : List (Unit → Int)).length =
      [decide ((6 : Int) > 10), decide ((6 : Int) > 5), decide ((6 : Int) > 0),
        decide ((6 : Int) > -5)].length + 1 ∧
    ifelse [decide ((6 : Int) > 10), decide ((6 : Int) > 5),
        decide ((6 : Int) > 0), decide ((6 : Int) > -5)]
      [fun _ => (1 : Int), fun _ => 2, fun _ => 3, fun _ => 4, fun _ => 5] () =
      .ok ((fun _ => (2 : Int)) ()) :=
  ⟨by decide,
    (ifelse_firstTrue_semantics
      [decide ((6 : Int) > 10), decide ((6 : Int) > 5), decide ((6 : Int) > 0),
        decide ((6 : Int) > -5)]
      [fun _ => (1 : Int), fun _ => 2, fun _ => 3, fun _ => 4, fun _ => 5]
      () (by decide) (fun _ => (2 : Int)) rfl).1⟩

/-- C3: writing a new value into a StateCell fails with ShapeMismatch when
the shape differs (for every mismatched shape), fails with TypeMismatch when
the shape matches but the element type differs, and otherwise replaces the
stored value (bumping the version, keeping the identity) — identically for
`.value` assignment and for `.update()`. -/
theorem variable_write_checks (c : Variable) (v : TensorVal) :
    (c.val.shape ≠ v.shape →
      c.valueAssign v = .error (.shapeMismatch c.val.shape v.shape) ∧
      c.update v = .error (.shapeMismatch c.val.shape v.shape)) ∧
    (c.val.shape = v.shape → c.val.dtype ≠ v.dtype →
      c.valueAssign v = .error (.typeMismatch c.val.dtype v.dtype) ∧
      c.update v = .error (.typeMismatch c.val.dtype v.dtype)) ∧
    (c.val.shape = v.shape → c.val.dtype = v.dtype →
      c.valueAssign v = .ok ⟨c.ident, v, c.version + 1⟩ ∧
      c.update v = .ok ⟨c.ident, v, c.version + 1⟩) := by
  refine ⟨fun hs => ?_, fun hs hd => ?_, fun hs hd => ?_⟩
  · simp [Variable.valueAssign, Variable.update, hs]
  · simp [Variable.valueAssign, Variable.update, hs, hd]
  · simp [Variable.valueAssign, Variable.update, hs, hd]

/-- C3 witness: the notebook's cell `v = Variable(arange(10))` against a
scalar write (shape mismatch), a float write (dtype mismatch) and a
same-shape/dtype write (accepted). -/
theorem variable_write_checks_witness :
    v0.val.shape ≠ ([] : List Nat) ∧
    v0.valueAssign ⟨[], .int32, [1]⟩ = .error (.shapeMismatch [10] []) ∧
    v0.update ⟨[], .int32, [1]⟩ = .error (.shapeMismatch [10] []) := by
  refine ⟨by decide, ?_, ?_⟩
  · exact ((variable_write_checks v0 ⟨[], .int32, [1]⟩).1 (by decide)).1
  · exact ((variable_write_checks v0 ⟨[], .int32, [1]⟩).1 (by decide)).2

/-- `.value` assignment never changes the identity token of the cell. -/
theorem valueAssign_ident (c : Variable) (v : TensorVal) (c' : Variable)
    (h : c.valueAssign v = .ok c') : c'.ident = c.ident := by
  unfold Variable.valueAssign at h
  split at h
  · exact Except.noConfusion h
  · split at h
    · exact Except.noConfusion h
    · cases h; rfl

/-- One in-place mutation never changes the identity token of the cell. -/
theorem applyMutation_ident (c : Variable) (m : Mutation) (c' : Variable)
    (h : c.applyMutation m = .ok c') : c'.ident = c.ident := by
  cases m with
  | setIndex i x => cases h; rfl
  | setSlice i j x => cases h; rfl
  | augAdd x => cases h; rfl
  | augMul x => cases h; rfl
  | valueAssign v => exact valueAssign_ident c v c' h
  | update v => exact valueAssign_ident c v c' h

/-- C4: across any sequence of successful in-place mutations (index and slice
assignment, augmented assignment, `.value` assignment, `.update()`), the
StateCell's identity is unchanged — only the stored value and the version
counter move. -/
theorem variable_identity_stable (ms : List Mutation) :
    ∀ (c c' : Variable), c.applyMutations ms = .ok c' → c'.ident = c.ident := by
  induction ms with
  | nil =>
    intro c c' h
    simp only [Variable.applyMutations, Except.ok.injEq] at h
    cases h; rfl
  | cons m ms ih =>
    intro c c' h
    unfold Variable.applyMutations at h
    cases hm : c.applyMutation m with
    | error e => rw [hm] at h; exact Except.noConfusion h
    | ok c₁ =>
      rw [hm] at h
      exact (ih c₁ c' h).trans (applyMutation_ident c m c₁ hm)

/-- The native loop starting from any already-gathered history prepends that
history to the structured loop's outputs. -/
theorem nativeForLoop_foldl {σ α β : Type} (body : σ → α → σ × β) :
    ∀ (xs : List α) (s : σ) (acc : List β),
    xs.foldl (fun acc x =>
        ((body acc.1 x).1, acc.2 ++ [(body acc.1 x).2])) (s, acc) =
      ((forLoop body s xs).1, acc ++ (forLoop body s xs).2) := by
  intro xs
  induction xs with
  | nil => intro s acc; simp [forLoop]
  | cons x xs ih =>
    intro s acc
    simp only [List.foldl, forLoop]
    rw [ih (body s x).1 (acc ++ [(body s x).2])]
    simp

/-- The structured loop and the native loop agree on state and history. -/
theorem forLoop_eq_native {σ α β : Type} (body : σ → α → σ × β) (s : σ)
    (xs : List α) : forLoop body s xs = nativeForLoop body s xs := by
  unfold nativeForLoop
  rw [nativeForLoop_foldl body xs s []]
  simp

/-- The gathered history has one entry per input slice. -/
theorem forLoop_length {σ α β : Type} (body : σ → α → σ × β) :
    ∀ (xs : List α) (s : σ), (forLoop body s xs).2.length = xs.length := by
  intro xs
  induction xs with
  | nil => intro s; simp [forLoop]
  | cons x xs ih => intro s; simp [forLoop, ih]

/-- The i-th gathered output is the body applied to the i-th input slice
under the state accumulated through the first i iterations. -/
theorem forLoop_entry {σ α β : Type} (body : σ → α → σ × β) :
    ∀ (xs : List α) (s : σ) (i : Nat) (h : i < xs.length),
    (forLoop body s xs).2.get? i =
      some ((body (forLoop body s (xs.take i)).1 (xs.get ⟨i, h⟩)).2) := by
  intro xs
  induction xs with
  | nil => intro s i h; simp at h
  | cons x xs ih =>
    intro s i h
    cases i with
    | zero => simp [forLoop]
    | succ j =>
      have hj : j < xs.length := by simpa using h
      simp only [forLoop, List.get?_cons_succ, List.take_succ_cons,
        List.get_cons_succ]
      exact ih (body s x).1 j hj

/-- C5: `bounded_loop(body, xs)` (`brainpy.math.for_loop`) returns a stacked
history of length `len(xs)` whose i-th entry is the body applied to `xs[i]`
under the StateCell state accumulated through iterations `0..i-1`; it matches
native sequential execution exactly, and for the running-sum body over the
1000 fixed pseudo-random values the structured and native loops produce
bit-identical final state. -/
theorem forLoop_refines_sequential {σ α β : Type} (body : σ → α → σ × β)
    (s : σ) (xs : List α) (i : Nat) (h : i < xs.length) :
    forLoop body s xs = nativeForLoop body s xs ∧
    (forLoop body s xs).2.length = xs.length ∧
    (forLoop body s xs).2.get? i =
      some ((body (forLoop body s (xs.take i)).1 (xs.get ⟨i, h⟩)).2) ∧
    (forLoop sumBody 0 (randSeq 1000)).1 =
      (nativeForLoop sumBody 0 (randSeq 1000)).1 :=
  ⟨forLoop_eq_native body s xs, forLoop_length body xs s,
   forLoop_entry body xs s i h,
   congrArg Prod.fst (forLoop_eq_native sumBody 0 (randSeq 1000))⟩

/-- C5 witness: the running-sum body over the inputs `[5, 7]`, checked at
entry 1. -/
theorem forLoop_refines_sequential_witness :
    1 < ([5, 7] : List Int).length ∧
    (forLoop sumBody 0 [5, 7] = nativeForLoop sumBody 0 [5, 7] ∧
     (forLoop sumBody 0 [5, 7]).2.length = ([5, 7] : List Int).length ∧
     (forLoop sumBody 0 [5, 7]).2.get? 1 =
       some ((sumBody (forLoop sumBody 0 (([5, 7] : List Int).take 1)).1
         (([5, 7] : List Int).get ⟨1, by decide⟩)).2) ∧
     (forLoop sumBody 0 (randSeq 1000)).1 =
       (nativeForLoop sumBody 0 (randSeq 1000)).1) :=
  ⟨by decide, forLoop_refines_sequential sumBody 0 [5, 7] 1 (by decide)⟩

/-- Spending one more unit of fuel cannot change an already-terminated
conditional loop. -/
theorem whileLoop_fuel_succ {α : Type} (pred : α → Bool) (body : α → α) :
    ∀ (n : Nat) (x : α) (r : α × Nat),
    whileLoop pred body n x = some r →
    whileLoop pred body (n + 1) x = some r := by
  intro n
  induction n with
  | zero =>
    intro x r h
    unfold whileLoop at h ⊢
    by_cases hp : pred x
    · rw [if_pos hp] at h; exact Option.noConfusion h
    · rw [if_neg hp] at h ⊢; exact h
  | succ n ih =>
    intro x r h
    unfold whileLoop at h ⊢
    by_cases hp : pred x
    · rw [if_pos hp] at h ⊢
      cases ho : whileLoop pred body n (body x) with
      | none => rw [ho] at h; exact Option.noConfusion h
      | some r₁ =>
        rw [ho] at h
        rw [ih (body x) r₁ ho]
        exact h
    · rw [if_neg hp] at h ⊢; exact h

/-- C6: the conditional loop (`brainpy.math.while_loop`) with predicate
`i[0] < 10` and body `i + 1`, started at `i = 0`, terminates after exactly
10 iterations with `i = 10` (for any fuel bound of at least 10). -/
theorem while_loop_ten_iterations (fuel : Nat) (h : 10 ≤ fuel) :
    whileLoop cond_f body_f fuel 0 = some (10, 10) := by
  obtain ⟨k, rfl⟩ := Nat.exists_eq_add_of_le h
  clear h
  induction k with
  | zero => decide
  | succ k ih =>
    rw [Nat.add_succ]
    exact whileLoop_fuel_succ cond_f body_f (10 + k) 0 (10, 10) ih

/-- C6 witness: with fuel 12 the loop from 0 stops at value 10 after 10
iterations. -/
theorem while_loop_ten_iterations_witness :
    10 ≤ 12 ∧ whileLoop cond_f body_f 12 0 = some (10, 10) :=
  ⟨by decide, while_loop_ten_iterations 12 (by decide)⟩

/-- C7: a compiled function invoked twice with an identical argument
signature traces exactly once — the second call is a cache hit whose
StateCell writes are still committed — while an invocation with a changed
rank/dtype signature triggers a second trace. -/
theorem jit_trace_once_per_signature {σ : Type} (func : σ → σ) (cells : σ)
    (sig sig₂ : Sig) :
    (jitInvoke func (jitInit cells) sig).traceCount = 1 ∧
    (jitInvoke func (jitInvoke func (jitInit cells) sig) sig).traceCount = 1 ∧
    (jitInvoke func (jitInvoke func (jitInit cells) sig) sig).cells =
      func (func cells) ∧
    (sig₂ ≠ sig →
      (jitInvoke func (jitInvoke func (jitInit cells) sig) sig₂).traceCount
        = 2) := by
  refine ⟨?_, ?_, ?_, fun hne => ?_⟩
  · simp [jitInvoke, jitInit]
  · simp [jitInvoke, jitInit]
  · simp [jitInvoke, jitInit]
  · simp [jitInvoke, jitInit, hne]

/-- C7 witness: the signature of a rank-1 float argument of length 1000,
then a rank change to `[1000, 1]`, on a concrete cell state. -/
theorem jit_trace_once_per_signature_witness :
    (⟨[[1000, 1]], [.float32]⟩ : Sig) ≠ (⟨[[1000]], [.float32]⟩ : Sig) ∧
    ((jitInvoke (fun s => s + 1) (jitInit (0 : Int))
        ⟨[[1000]], [.float32]⟩).traceCount = 1 ∧
     (jitInvoke (fun s => s + 1)
        (jitInvoke (fun s => s + 1) (jitInit (0 : Int)) ⟨[[1000]], [.float32]⟩)
        ⟨[[1000]], [.float32]⟩).traceCount = 1 ∧
     (jitInvoke (fun s => s + 1)
        (jitInvoke (fun s => s + 1) (jitInit (0 : Int)) ⟨[[1000]], [.float32]⟩)
        ⟨[[1000]], [.float32]⟩).cells = (fun s => s + 1) ((fun s => s + 1) (0 : Int)) ∧
     ((⟨[[1000, 1]], [.float32]⟩ : Sig) ≠ (⟨[[1000]], [.float32]⟩ : Sig) →
      (jitInvoke (fun s => s + 1)
        (jitInvoke (fun s => s + 1) (jitInit (0 : Int)) ⟨[[1000]], [.float32]⟩)
        ⟨[[1000, 1]], [.float32]⟩).traceCount = 2)) :=
  ⟨by decide,
    jit_trace_once_per_signature (fun s => s + 1) (0 : Int)
      ⟨[[1000]], [.float32]⟩ ⟨[[1000, 1]], [.float32]⟩⟩

/-- C4 witness: the notebook's mutation chain on `v = Variable(arange(10))`
(`v[0] = 1`, `v[1:2] = 1`, `v += 1`, `v *= 2`, `v.value = arange(10)`,
`v.update(...)`) leaves the identity token 7 unchanged. -/
theorem variable_identity_stable_witness :
    v0.applyMutations ms0 =
      .ok (⟨7, ⟨[10], .int32, List.range 10 |>.map Int.ofNat⟩, 6⟩ :
        Variable) ∧
    (⟨7, ⟨[10], .int32, List.range 10 |>.map Int.ofNat⟩, 6⟩ :
        Variable).ident = 7 :=
  ⟨by decide,
    variable_identity_stable ms0 v0
      ⟨7, ⟨[10], .int32, List.range 10 |>.map Int.ofNat⟩, 6⟩ (by decide)⟩

/-- Splitting a flat offset by a block size recovers quotient and
remainder. -/
theorem flatten_div_mod (p i r : Nat) (hr : r < p) :
    (i * p + r) / p = i ∧ (i * p + r) % p = r := by
  have hp : 0 < p := Nat.lt_of_le_of_lt (Nat.zero_le r) hr
  constructor
  · rw [Nat.add_comm, Nat.mul_comm, Nat.add_mul_div_left _ _ hp,
      Nat.div_eq_of_lt hr, Nat.zero_add]
  · rw [Nat.add_comm, Nat.mul_comm, Nat.add_mul_mod_self_left,
      Nat.mod_eq_of_lt hr]

/-- A valid multi-index has its row-major offset within the shape's size. -/
theorem toOffset_lt_prod : ∀ (s idx : List Nat),
    validIdx s idx = true → toOffset s idx < s.prod := by
  intro s
  induction s with
  | nil =>
    intro idx h
    cases idx with
    | nil => simp [toOffset]
    | cons i is => simp [validIdx] at h
  | cons d ds ih =>
    intro idx h
    cases idx with
    | nil => simp [validIdx] at h
    | cons i is =>
      simp only [validIdx, Bool.and_eq_true, decide_eq_true_eq] at h
      obtain ⟨hi, hrest⟩ := h
      have hr := ih is hrest
      simp only [toOffset, List.prod_cons]
      calc i * ds.prod + toOffset ds is < i * ds.prod + ds.prod := by omega
        _ = (i + 1) * ds.prod := by ring
        _ ≤ d * ds.prod := Nat.mul_le_mul_right _ hi

/-- Unflattening the offset of a valid multi-index recovers the index. -/
theorem unflatten_toOffset : ∀ (s idx : List Nat),
    validIdx s idx = true → unflatten s (toOffset s idx) = idx := by
  intro s
  induction s with
  | nil =>
    intro idx h
    cases idx with
    | nil => rfl
    | cons i is => simp [validIdx] at h
  | cons d ds ih =>
    intro idx h
    cases idx with
    | nil => simp [validIdx] at h
    | cons i is =>
      simp only [validIdx, Bool.and_eq_true, decide_eq_true_eq] at h
      obtain ⟨hi, hrest⟩ := h
      have hlt := toOffset_lt_prod ds is hrest
      obtain ⟨hdiv, hmod⟩ := flatten_div_mod ds.prod i (toOffset ds is) hlt
      simp only [toOffset, unflatten]
      rw [hdiv, hmod, ih is hrest]

/-- The normal form of a successful broadcast selection. -/
theorem select_eq {α : Type} (dflt : α) (cond : Tensor Bool) (x y : Tensor α)
    (s₁ s : List Nat) (h₁ : broadcastShape cond.shape x.shape = some s₁)
    (h₂ : broadcastShape s₁ y.shape = some s) :
    select dflt cond x y = some ⟨s, (List.range s.prod).map (fun k =>
      if cond.bGet false (unflatten s k) then x.bGet dflt (unflatten s k)
      else y.bGet dflt (unflatten s k))⟩ := by
  simp [select, h₁, h₂]

/-- C8: `select(condition, on_true, on_false)` (`brainpy.math.where`) with
condition, on_true and on_false broadcastable to a common shape is the
element-wise choice: on scalars `select(True, x, y) = x` and
`select(False, x, y) = y`, and at every valid index of the common shape the
result holds the on_true element where the condition holds and the on_false
element otherwise — uniformly over ranks, via broadcasting. -/
theorem select_elementwise_broadcast {α : Type} (dflt xv yv : α)
    (cond : Tensor Bool) (x y : Tensor α) (s₁ s idx : List Nat)
    (h₁ : broadcastShape cond.shape x.shape = some s₁)
    (h₂ : broadcastShape s₁ y.shape = some s)
    (hidx : validIdx s idx = true) :
    select dflt (Tensor.scalar true) (Tensor.scalar xv) (Tensor.scalar yv) =
      some (Tensor.scalar xv) ∧
    select dflt (Tensor.scalar false) (Tensor.scalar xv) (Tensor.scalar yv) =
      some (Tensor.scalar yv) ∧
    Option.map (fun t => t.getAt dflt idx) (select dflt cond x y) =
      some (if cond.bGet false idx then x.bGet dflt idx
        else y.bGet dflt idx) := by
  refine ⟨rfl, rfl, ?_⟩
  rw [select_eq dflt cond x y s₁ s h₁ h₂]
  simp only [Option.map_some']
  unfold Tensor.getAt
  have hlt := toOffset_lt_prod s idx hidx
  rw [List.getD_eq_getD_get?, List.get?_eq_getElem?, List.getElem?_map,
    List.getElem?_range hlt]
  simp only [Option.map_some', Option.getD_some]
  rw [unflatten_toOffset s idx hidx]

/-- C8 witness: the condition `[false, true]` choosing between the vector
`[10, 20]` and the broadcast scalar 99, checked at index `[1]`, together with
the scalar cases. -/
theorem select_elementwise_broadcast_witness :
    (broadcastShape ([2] : List Nat) [2] = some [2] ∧
     broadcastShape ([2] : List Nat) [] = some [2] ∧
     validIdx [2] [1] = true) ∧
    (select (0 : Int) (Tensor.scalar true) (Tensor.scalar 10)
        (Tensor.scalar 99) = some (Tensor.scalar 10) ∧
     select (0 : Int) (Tensor.scalar false) (Tensor.scalar 10)
        (Tensor.scalar 99) = some (Tensor.scalar 99) ∧
     Option.map (fun t => t.getAt (0 : Int) [1])
        (select (0 : Int) (⟨[2], [false, true]⟩ : Tensor Bool)
          (⟨[2], [10, 20]⟩ : Tensor Int) (Tensor.scalar 99)) =
       some (if (⟨[2], [false, true]⟩ : Tensor Bool).bGet false [1] then
           (⟨[2], [10, 20]⟩ : Tensor Int).bGet 0 [1]
         else (Tensor.scalar (99 : Int)).bGet 0 [1])) :=
  ⟨⟨by decide, by decide, by decide⟩,
    select_elementwise_broadcast (0 : Int) 10 99
      (⟨[2], [false, true]⟩ : Tensor Bool) (⟨[2], [10, 20]⟩ : Tensor Int)
      (Tensor.scalar 99) [2] [2] [1] (by decide) (by decide) (by decide)⟩

/-- Serialization then deserialization of a checkpoint is the identity on
the key-to-value mapping. -/
theorem loadPytree_savePytree : ∀ (m : List (String × TensorVal)),
    loadPytree (savePytree m) = m := by
  intro m
  induction m with
  | nil => rfl
  | cons p m ih =>
    show (p.1, ⟨p.2.shape, p.2.dtype, p.2.data⟩) ::
      loadPytree (savePytree m) = p :: m
    rw [ih]

/-- With distinct keys, looking a member's key up in the mapping finds its
value. -/
theorem lookupKey_self : ∀ (obj : List (String × TensorVal)),
    (obj.map Prod.fst).Nodup → ∀ p ∈ obj, lookupKey p.1 obj = some p.2 := by
  intro obj
  induction obj with
  | nil => intro _ p hp; cases hp
  | cons q obj ih =>
    intro hnd p hp
    simp only [List.map_cons, List.nodup_cons] at hnd
    obtain ⟨hq, hnd₁⟩ := hnd
    cases hp with
    | head => simp [lookupKey]
    | tail _ hp₁ =>
      have hne : q.1 ≠ p.1 := fun he =>
        hq (he ▸ List.mem_map_of_mem Prod.fst hp₁)
      simp only [lookupKey, hne, if_false]
      exact ih hnd₁ p hp₁

/-- C9: for an object whose structure is unchanged between save and load,
applying `load(save(state_of(obj)))` back onto the object restores every
named value bit-for-bit and reports empty `missing_keys` and empty
`unexpected_keys`. -/
theorem save_load_roundtrip (cells : List (String × Variable))
    (hnd : ((stateOf cells).map Prod.fst).Nodup) :
    (loadState (stateOf cells)
      (loadPytree (savePytree (stateOf cells)))).1 = stateOf cells ∧
    (loadState (stateOf cells)
      (loadPytree (savePytree (stateOf cells)))).2.1 = [] ∧
    (loadState (stateOf cells)
      (loadPytree (savePytree (stateOf cells)))).2.2 = [] := by
  rw [loadPytree_savePytree]
  unfold loadState
  refine ⟨?_, ?_, ?_⟩
  · have h₁ : (stateOf cells).map
        (fun p => (p.1, (lookupKey p.1 (stateOf cells)).getD p.2)) =
        (stateOf cells).map id :=
      List.map_congr_left
        (fun p hp => by rw [lookupKey_self (stateOf cells) hnd p hp]; rfl)
    rw [h₁, List.map_id]
  · have : (stateOf cells).filter
        (fun p => (lookupKey p.1 (stateOf cells)).isNone) = [] := by
      rw [List.filter_eq_nil_iff]
      intro p hp
      rw [lookupKey_self (stateOf cells) hnd p hp]
      simp
    rw [this]; rfl
  · have : (stateOf cells).filter
        (fun p => (lookupKey p.1 (stateOf cells)).isNone) = [] := by
      rw [List.filter_eq_nil_iff]
      intro p hp
      rw [lookupKey_self (stateOf cells) hnd p hp]
      simp
    rw [this]; rfl

/-- C9 witness: the two-cell object of the saving notebook (`SNN0.var` and
`Lif0.V`) round-trips with no missing and no unexpected keys. -/
theorem save_load_roundtrip_witness :
    ((stateOf [("SNN0.var", ⟨1, ⟨[1], .float32, [0]⟩, 0⟩),
        ("Lif0.V", ⟨2, ⟨[2], .float32, [0, 0]⟩, 0⟩)]).map Prod.fst).Nodup ∧
    ((loadState
        (stateOf [("SNN0.var", ⟨1, ⟨[1], .float32, [0]⟩, 0⟩),
          ("Lif0.V", ⟨2, ⟨[2], .float32, [0, 0]⟩, 0⟩)])
        (loadPytree (savePytree
          (stateOf [("SNN0.var", ⟨1, ⟨[1], .float32, [0]⟩, 0⟩),
            ("Lif0.V", ⟨2, ⟨[2], .float32, [0, 0]⟩, 0⟩)])))).1 =
      stateOf [("SNN0.var", ⟨1, ⟨[1], .float32, [0]⟩, 0⟩),
        ("Lif0.V", ⟨2, ⟨[2], .float32, [0, 0]⟩, 0⟩)] ∧
     (loadState
        (stateOf [("SNN0.var", ⟨1, ⟨[1], .float32, [0]⟩, 0⟩),
          ("Lif0.V", ⟨2, ⟨[2], .float32, [0, 0]⟩, 0⟩)])
        (loadPytree (savePytree
          (stateOf [("SNN0.var", ⟨1, ⟨[1], .float32, [0]⟩, 0⟩),
            ("Lif0.V", ⟨2, ⟨[2], .float32, [0, 0]⟩, 0⟩)])))).2.1 = [] ∧
     (loadState
        (stateOf [("SNN0.var", ⟨1, ⟨[1], .float32, [0]⟩, 0⟩),
          ("Lif0.V", ⟨2, ⟨[2], .float32, [0, 0]⟩, 0⟩)])
        (loadPytree (savePytree
          (stateOf [("SNN0.var", ⟨1, ⟨[1], .float32, [0]⟩, 0⟩),
            ("Lif0.V", ⟨2, ⟨[2], .float32, [0, 0]⟩, 0⟩)])))).2.2 = []) :=
  ⟨by decide,
    save_load_roundtrip
      [("SNN0.var", ⟨1, ⟨[1], .float32, [0]⟩, 0⟩),
        ("Lif0.V", ⟨2, ⟨[2], .float32, [0, 0]⟩, 0⟩)] (by decide)⟩

/-- C10: restoring a checkpoint from a file path or directory that does not
exist returns the original target unchanged — a silent no-op at the public
interface, not a surfaced error. -/
theorem load_missing_path_returns_target
    (fs : String → Option CheckpointFile) (filename : String)
    (target : List (String × TensorVal)) (h : fs filename = none) :
    loadPytreeFromFS fs filename target = .ok target := by
  unfold loadPytreeFromFS
  rw [h]

/-- C10 witness: an empty filesystem, the notebook's `a.bp` path and a
one-cell target. -/
theorem load_missing_path_returns_target_witness :
    (fun _ : String => (none : Option CheckpointFile)) "a.bp" = none ∧
    loadPytreeFromFS (fun _ => none) "a.bp"
        [("SNN0.var", ⟨[1], .float32, [0]⟩)] =
      .ok [("SNN0.var", ⟨[1], .float32, [0]⟩)] :=
  ⟨rfl, load_missing_path_returns_target (fun _ => none) "a.bp"
    [("SNN0.var", ⟨[1], .float32, [0]⟩)] rfl⟩

end BrainPy
